import Mathlib

/-!
Verification of the live audio session engine and task helpers of the
repository (src/services/liveSessionHook.ts, src/App.tsx, src/types.ts).
Machine integers and clock times are modelled as exact numbers; strings are
modelled as Lean strings over their character lists.
-/

namespace OneApp

/-! ## Data model (src/types.ts) -/

/-- Task category, from the `category` union type in src/types.ts. -/
inductive Category where
  | work
  | personal
  | idea
  | meeting
deriving DecidableEq, Repr

/-- Task status, from the `status` union type in src/types.ts. -/
inductive Status where
  | pending
  | completed
deriving DecidableEq, Repr

/-- The Task record of src/types.ts. -/
structure Task where
  id : String
  title : String
  description : Option String := none
  time : Option String := none
  location : Option String := none
  status : Status
  notes : List String := []
  category : Category
deriving DecidableEq, Repr

/-! ## String helpers: JS `toLowerCase` and `includes`, modelled over the
character list (ASCII case folding, which covers every string the engine
compares). -/

/-- ASCII lower-casing of one character, the model of JS `toLowerCase`
applied pointwise. -/
def lowerChar (c : Char) : Char :=
  if c.isUpper then Char.ofNat (c.toNat + 32) else c

/-- Boolean prefix test on character lists. -/
def isPrefixB : List Char → List Char → Bool
  | [], _ => true
  | _ :: _, [] => false
  | a :: as, b :: bs => a == b && isPrefixB as bs

/-- Boolean contiguous-substring test: does the needle occur inside the
haystack (the empty needle always does, as with JS `includes`). -/
def includesB (hay needle : List Char) : Bool :=
  match hay with
  | [] => needle.isEmpty
  | _ :: t => isPrefixB needle hay || includesB t needle

/-- Model of `haystack.toLowerCase().includes(needle.toLowerCase())`. -/
def strIncludes (haystack needle : String) : Bool :=
  includesB (haystack.data.map lowerChar) (needle.data.map lowerChar)

/-! ## Task mutation operations (src/App.tsx) -/

/-- The match predicate of `completeTask` in src/App.tsx:
`t.id === titleOrId || t.title.toLowerCase().includes(titleOrId.toLowerCase())`. -/
def matchesQuery (titleOrId : String) (t : Task) : Bool :=
  t.id == titleOrId || strIncludes t.title titleOrId

/-- `completeTask` of src/App.tsx (lines 93-100): map over the task list,
setting `status := completed` on every task matched by `matchesQuery`. -/
def completeTask (titleOrId : String) (tasks : List Task) : List Task :=
  tasks.map fun t => if matchesQuery titleOrId t then { t with status := Status.completed } else t

/-! ## Tool dispatcher (src/services/liveSessionHook.ts, onmessage 185-210) -/

/-- The argument object of a tool call; `Partial<Task>` fields, all optional,
as the dispatcher forwards `call.args` whole to `onAddTask`. -/
structure PartialTask where
  title : Option String := none
  description : Option String := none
  time : Option String := none
  location : Option String := none
  category : Option Category := none
deriving DecidableEq, Repr

/-- An inbound function call `{id, name, args}` from the batched tool-call
message. -/
structure FnCall where
  id : String
  name : String
  args : PartialTask
deriving DecidableEq, Repr

/-- The `result` payload built per call: `{status:'ok'}` fallback,
`{status:'success', message}` for the two mutating tools, or the task
projection returned by `getExistingTasks`. -/
inductive ToolResult where
  | ok
  | success (message : String)
  | taskList (tasks : List (String × Status × Option String))
deriving DecidableEq, Repr

/-- An outbound per-call response `{id, name, response: {result}}`. -/
structure FnResponse where
  id : String
  name : String
  result : ToolResult
deriving DecidableEq, Repr

/-- An invocation of an externally supplied operation (the `onAddTask` /
`onCompleteTask` props). -/
inductive ExtOp where
  | addTask (args : PartialTask)
  | completeTask (title : Option String)
deriving DecidableEq, Repr

/-- One iteration of the dispatcher loop in `onmessage`: the external
operations invoked for the call, and the response pushed for it. -/
def handleCall (existingTasks : List Task) (call : FnCall) : List ExtOp × FnResponse :=
  if call.name = "addTask" then
    ([ExtOp.addTask call.args],
     { id := call.id, name := call.name, result := ToolResult.success "Task added to board." })
  else if call.name = "markTaskComplete" then
    ([ExtOp.completeTask call.args.title],
     { id := call.id, name := call.name, result := ToolResult.success "Task marked complete." })
  else if call.name = "getExistingTasks" then
    ([],
     { id := call.id, name := call.name,
       result := ToolResult.taskList (existingTasks.map fun t => (t.title, t.status, t.time)) })
  else
    ([], { id := call.id, name := call.name, result := ToolResult.ok })

/-- The batched response list sent back in the single `sendToolResponse`
call: one response per inbound call, in loop order. -/
def dispatchBatch (existingTasks : List Task) (calls : List FnCall) : List FnResponse :=
  calls.map fun c => (handleCall existingTasks c).2

/-- All external operations invoked while processing the batch, in order. -/
def batchEffects (existingTasks : List Task) (calls : List FnCall) : List ExtOp :=
  calls.flatMap fun c => (handleCall existingTasks c).1

/-- Sample task used to instantiate the universally quantified theorems. -/
def buyMilk : Task :=
  { id := "1", title := "Buy milk", status := Status.pending, notes := [], category := Category.work }

/-- Second sample task, whose title also mentions milk. -/
def milkRun : Task :=
  { id := "2", title := "milk run", status := Status.pending, notes := [], category := Category.personal }

/-- The response produced for a call carries the identifier of that call. -/
theorem handleCall_id (tasks : List Task) (c : FnCall) :
    (handleCall tasks c).2.id = c.id := by
  unfold handleCall
  split_ifs <;> rfl

/-- The response produced for a call carries the name of that call. -/
theorem handleCall_name (tasks : List Task) (c : FnCall) :
    (handleCall tasks c).2.name = c.name := by
  unfold handleCall
  split_ifs <;> rfl

/-- C3: every batched tool-call message yields exactly one response per call,
collected into one batched response list that preserves the originating
order, each response keeping the id (and name) of its originating call. -/
theorem tool_batch_spec (tasks : List Task) (calls : List FnCall) :
    (dispatchBatch tasks calls).length = calls.length ∧
    (∀ i : Nat, ((dispatchBatch tasks calls)[i]?).map FnResponse.id = (calls[i]?).map FnCall.id) ∧
    (∀ i : Nat, ((dispatchBatch tasks calls)[i]?).map FnResponse.name = (calls[i]?).map FnCall.name) := by
  refine ⟨by simp [dispatchBatch], fun i => ?_, fun i => ?_⟩
  · cases h : calls[i]? with
    | none => simp [dispatchBatch, h]
    | some c => simp [dispatchBatch, h, handleCall_id]
  · cases h : calls[i]? with
    | none => simp [dispatchBatch, h]
    | some c => simp [dispatchBatch, h, handleCall_name]

/-- C4: dispatching `{name:"addTask", args:{title:"Buy milk"}}` invokes the
external add-operation exactly once, with exactly the args `{title:"Buy
milk"}`, and responds `{status:"success", message:"Task added to board."}`. -/
theorem dispatch_addTask_spec (tasks : List Task) (cid : String) :
    handleCall tasks { id := cid, name := "addTask", args := { title := some "Buy milk" } } =
      ([ExtOp.addTask { title := some "Buy milk" }],
       { id := cid, name := "addTask", result := ToolResult.success "Task added to board." }) := by
  rfl

/-- C5: dispatching `{name:"markTaskComplete", args:{title:t}}` invokes the
external complete-operation with t and responds
`{status:"success", message:"Task marked complete."}`; the external
operation marks every task matching t (by identifier equality or
case-insensitive title substring) completed, and is a no-op on a list with
no match — while the dispatcher still returns the same success response. -/
theorem dispatch_markTaskComplete_spec (tasks : List Task) (cid t : String) :
    handleCall tasks { id := cid, name := "markTaskComplete", args := { title := some t } } =
      ([ExtOp.completeTask (some t)],
       { id := cid, name := "markTaskComplete",
         result := ToolResult.success "Task marked complete." }) ∧
    (∀ i : Nat, ∀ tk : Task, tasks[i]? = some tk → matchesQuery t tk = true →
      (completeTask t tasks)[i]? = some { tk with status := Status.completed }) ∧
    ((∀ tk ∈ tasks, matchesQuery t tk = false) → completeTask t tasks = tasks) := by
  refine ⟨rfl, fun i tk h hm => ?_, fun h => ?_⟩
  · simp [completeTask, h, hm]
  · unfold completeTask
    have hcongr : ∀ tk ∈ tasks,
        (if matchesQuery t tk then { tk with status := Status.completed } else tk) = id tk := by
      intro tk hk
      simp [h tk hk]
    rw [List.map_congr_left hcongr, List.map_id]

/-- Witness for C5 at a concrete board: "milk" completes the task titled
"Buy milk"; "zzz" matches nothing and leaves the board unchanged. -/
theorem dispatch_markTaskComplete_spec_witness :
    (([buyMilk] : List Task)[0]? = some buyMilk ∧ matchesQuery "milk" buyMilk = true ∧
      (completeTask "milk" [buyMilk])[0]? = some { buyMilk with status := Status.completed }) ∧
    ((∀ tk ∈ ([buyMilk] : List Task), matchesQuery "zzz" tk = false) ∧
      completeTask "zzz" [buyMilk] = [buyMilk]) := by
  refine ⟨⟨by decide, by decide, ?_⟩, ⟨by decide, ?_⟩⟩
  · exact (dispatch_markTaskComplete_spec [buyMilk] "c1" "milk").2.1 0 buyMilk (by decide) (by decide)
  · exact (dispatch_markTaskComplete_spec [buyMilk] "c1" "zzz").2.2 (by decide)

/-- C10: the external completeTask operation maps the list pointwise, setting
`status := completed` on every task whose id equals the argument or whose
title contains it case-insensitively (all other fields of the matched task
and every non-matching task untouched); with no match the list is unchanged. -/
theorem completeTask_map_spec (tasks : List Task) (arg : String) :
    (completeTask arg tasks).length = tasks.length ∧
    (∀ i : Nat, (completeTask arg tasks)[i]? =
      (tasks[i]?).map fun tk =>
        if matchesQuery arg tk then { tk with status := Status.completed } else tk) ∧
    ((∀ tk ∈ tasks, matchesQuery arg tk = false) → completeTask arg tasks = tasks) := by
  refine ⟨by simp [completeTask], fun i => by simp [completeTask], fun h => ?_⟩
  unfold completeTask
  have hcongr : ∀ tk ∈ tasks,
      (if matchesQuery arg tk then { tk with status := Status.completed } else tk) = id tk := by
    intro tk hk
    simp [h tk hk]
  rw [List.map_congr_left hcongr, List.map_id]

/-- Witness for C10: with two tasks both mentioning milk, both become
completed and nothing else changes; an unmatched query changes nothing. -/
theorem completeTask_map_spec_witness :
    ((completeTask "Milk" [buyMilk, milkRun])[1]? =
      (([buyMilk, milkRun] : List Task)[1]?).map (fun tk =>
        if matchesQuery "Milk" tk then { tk with status := Status.completed } else tk)) ∧
    ((∀ tk ∈ ([buyMilk, milkRun] : List Task), matchesQuery "laundry" tk = false) ∧
      completeTask "laundry" [buyMilk, milkRun] = [buyMilk, milkRun]) := by
  refine ⟨(completeTask_map_spec [buyMilk, milkRun] "Milk").2.1 1, ⟨by decide, ?_⟩⟩
  exact (completeTask_map_spec [buyMilk, milkRun] "laundry").2.2 (by decide)

/-! ## Playback scheduler (src/services/liveSessionHook.ts, onmessage 213-244)

Device-clock times and durations are modelled as rationals. The state keeps
the `nextStartTimeRef` cursor, the list of frames handed to `source.start`
so far as (start, duration) pairs, and the `isTalking` flag. -/

/-- The playback-side state of the hook. -/
structure SchedState where
  nextStart : ℚ
  scheduled : List (ℚ × ℚ)
  isTalking : Bool
deriving DecidableEq, Repr

/-- The audio-delta branch of `onmessage` at device-clock time `now` for a
decoded buffer of duration `dur`: set talking, schedule the frame at
`start = max(now, nextStart)`, and advance the cursor to `start + dur`. -/
def enqueueAudio (now dur : ℚ) (s : SchedState) : SchedState :=
  let start := max now s.nextStart
  { nextStart := start + dur
    scheduled := s.scheduled ++ [(start, dur)]
    isTalking := true }

/-- The `interrupted` branch of `onmessage`: reset the cursor to 0 and clear
the talking flag; already-scheduled frames are left untouched (the source
explicitly skips cancelling the playing nodes). -/
def interruptedHandler (s : SchedState) : SchedState :=
  { s with nextStart := 0, isTalking := false }

/-- Folding a sequence of (arrival time, duration) audio deltas through the
scheduler. -/
def runEnqueues (s : SchedState) : List (ℚ × ℚ) → SchedState
  | [] => s
  | f :: rest => runEnqueues (enqueueAudio f.1 f.2 s) rest

/-- Invariant of the scheduler state: consecutive scheduled frames do not
overlap, and every scheduled frame ends no later than the cursor. -/
def SchedInv (s : SchedState) : Prop :=
  List.Chain' (fun a b : ℚ × ℚ => a.1 + a.2 ≤ b.1) s.scheduled ∧
    ∀ x ∈ s.scheduled, x.1 + x.2 ≤ s.nextStart

/-- Enqueueing a frame of nonnegative duration preserves the scheduler
invariant. -/
theorem enqueueAudio_inv (now dur : ℚ) (s : SchedState) (hdur : 0 ≤ dur)
    (h : SchedInv s) : SchedInv (enqueueAudio now dur s) := by
  obtain ⟨hchain, hle⟩ := h
  have hstart : s.nextStart ≤ max now s.nextStart := le_max_right _ _
  constructor
  · rw [enqueueAudio, List.chain'_append]
    refine ⟨hchain, List.chain'_singleton _, fun x hx y hy => ?_⟩
    have hxmem : x ∈ s.scheduled := by
      obtain ⟨hne, hx⟩ := List.mem_getLast?_eq_getLast hx
      exact hx ▸ List.getLast_mem hne
    simp only [List.head?_cons, Option.mem_def, Option.some.injEq] at hy
    subst hy
    exact le_trans (hle x hxmem) hstart
  · intro x hx
    rw [enqueueAudio, List.mem_append] at hx
    rcases hx with hx | hx
    · show x.1 + x.2 ≤ (enqueueAudio now dur s).nextStart
      have hbound : max now s.nextStart ≤ max now s.nextStart + dur :=
        le_add_of_nonneg_right hdur
      simp only [enqueueAudio]
      exact le_trans (le_trans (hle x hx) hstart) hbound
    · simp only [List.mem_singleton] at hx
      subst hx
      simp [enqueueAudio]

/-- Running any sequence of frames with nonnegative durations preserves the
scheduler invariant. -/
theorem runEnqueues_inv (frames : List (ℚ × ℚ)) :
    ∀ s : SchedState, SchedInv s → (∀ f ∈ frames, 0 ≤ f.2) →
      SchedInv (runEnqueues s frames) := by
  induction frames with
  | nil => intro s hs _; exact hs
  | cons f rest ih =>
    intro s hs hdur
    exact ih _ (enqueueAudio_inv f.1 f.2 s (hdur f (by simp)) hs)
      (fun g hg => hdur g (by simp [hg]))

/-- C1: each enqueue computes `start = max(now, nextStart)`, appends the
frame scheduled at `start`, and sets `nextStart = start + duration`; over
any sequence of enqueues with nonnegative durations starting from an empty
schedule, consecutive scheduled frames never overlap (start of frame i+1 is
at least start + duration of frame i); and a frame arriving while its
predecessor is still scheduled (`now ≤ nextStart`) is scheduled exactly at
`nextStart`, leaving a gap of zero. -/
theorem enqueue_schedule_spec (s : SchedState) (now dur init : ℚ)
    (frames : List (ℚ × ℚ)) (hdur : ∀ f ∈ frames, 0 ≤ f.2) :
    enqueueAudio now dur s =
      { nextStart := max now s.nextStart + dur,
        scheduled := s.scheduled ++ [(max now s.nextStart, dur)],
        isTalking := true } ∧
    List.Chain' (fun a b : ℚ × ℚ => a.1 + a.2 ≤ b.1)
      (runEnqueues { nextStart := init, scheduled := [], isTalking := false } frames).scheduled ∧
    (now ≤ s.nextStart →
      (enqueueAudio now dur s).scheduled = s.scheduled ++ [(s.nextStart, dur)]) := by
  refine ⟨rfl, ?_, fun hlate => ?_⟩
  · exact (runEnqueues_inv frames _ ⟨List.chain'_nil, by simp⟩ hdur).1
  · simp [enqueueAudio, max_eq_right hlate]

/-- Witness for C1: a burst of two frames of duration 1 arriving at time 0
is scheduled back to back at starts 0 and 1; a frame arriving at time 1
while the cursor sits at 2 is scheduled exactly at 2. -/
theorem enqueue_schedule_spec_witness :
    ((∀ f ∈ ([(0, 1), (0, 1)] : List (ℚ × ℚ)), 0 ≤ f.2) ∧
      (1 : ℚ) ≤ (2 : ℚ)) ∧
    List.Chain' (fun a b : ℚ × ℚ => a.1 + a.2 ≤ b.1)
      (runEnqueues { nextStart := 0, scheduled := [], isTalking := false }
        [(0, 1), (0, 1)]).scheduled ∧
    (enqueueAudio 1 3 { nextStart := 2, scheduled := [], isTalking := true }).scheduled =
      [] ++ [((2 : ℚ), (3 : ℚ))] := by
  have h := enqueue_schedule_spec { nextStart := 2, scheduled := [], isTalking := true }
    1 3 0 [(0, 1), (0, 1)] (by norm_num)
  exact ⟨⟨by norm_num, by norm_num⟩, h.2.1, h.2.2 (by norm_num)⟩

/-- C2 counterexample: enqueue two unit frames at time 0 (scheduled at
starts 0 and 1, cursor 2), then receive `interrupted` at clock time 1/2.
The code resets the cursor to 0, not to the clock time 1/2, and the frame
scheduled at start 1 — beyond the current moment — is still scheduled. -/
theorem interrupted_counterexample :
    ¬ ((interruptedHandler (runEnqueues
          { nextStart := 0, scheduled := [], isTalking := false }
          [(0, 1), (0, 1)])).nextStart = 1 / 2) ∧
    ¬ (∀ f ∈ (interruptedHandler (runEnqueues
          { nextStart := 0, scheduled := [], isTalking := false }
          [(0, 1), (0, 1)])).scheduled, f.1 ≤ 1 / 2) := by
  have hrun : runEnqueues { nextStart := 0, scheduled := [], isTalking := false }
      [(0, 1), (0, 1)] =
      { nextStart := 2, scheduled := [(0, 1), (1, 1)], isTalking := true } := by
    show runEnqueues _ _ = _
    norm_num [runEnqueues, enqueueAudio]
  rw [hrun]
  constructor
  · intro h
    simp only [interruptedHandler] at h
    norm_num at h
  · intro h
    have := h (1, 1) (by simp [interruptedHandler])
    norm_num at this

/-- C2 amended: on `interrupted` the cursor is reset to 0 (not to the clock
time) and `assistantTalking` becomes false immediately, while frames already
scheduled are left uncancelled; because the next enqueue starts at
`max(now, 0) = now`, playback of subsequent audio still resumes at the
current clock time. -/
theorem interrupted_spec (s : SchedState) (now dur : ℚ) (hnow : 0 ≤ now) :
    (interruptedHandler s).nextStart = 0 ∧
    (interruptedHandler s).isTalking = false ∧
    (interruptedHandler s).scheduled = s.scheduled ∧
    (enqueueAudio now dur (interruptedHandler s)).scheduled = s.scheduled ++ [(now, dur)] := by
  refine ⟨rfl, rfl, rfl, ?_⟩
  simp [enqueueAudio, interruptedHandler, max_eq_left hnow]

/-- Witness for C2 amended, at a state with cursor 5 and one scheduled frame,
interrupted and then receiving a frame at clock time 3. -/
theorem interrupted_spec_witness :
    (0 : ℚ) ≤ 3 ∧
    ((interruptedHandler { nextStart := 5, scheduled := [(0, 2)], isTalking := true }).nextStart = 0 ∧
     (interruptedHandler { nextStart := 5, scheduled := [(0, 2)], isTalking := true }).isTalking = false ∧
     (interruptedHandler { nextStart := 5, scheduled := [(0, 2)], isTalking := true }).scheduled = [(0, 2)] ∧
     (enqueueAudio 3 1 (interruptedHandler
        { nextStart := 5, scheduled := [(0, 2)], isTalking := true })).scheduled =
       [(0, 2)] ++ [((3 : ℚ), (1 : ℚ))]) :=
  ⟨by norm_num,
   interrupted_spec { nextStart := 5, scheduled := [(0, 2)], isTalking := true } 3 1 (by norm_num)⟩

/-! ## Hook connection state (src/services/liveSessionHook.ts)

The refs of `useLiveSession` that hold resource handles are modelled as
booleans (handle present or not); the observable state fields are modelled
directly. -/

/-- The mutable state of the `useLiveSession` hook: resource refs, the
playback cursor, and the observable fields. -/
structure HookState where
  session : Bool
  processor : Bool
  source : Bool
  stream : Bool
  inputCtx : Bool
  audioCtx : Bool
  nextStart : ℚ
  connected : Bool
  isTalking : Bool
  isUserTalking : Bool
  userAudioLevel : ℚ
  error : Option String
deriving DecidableEq, Repr

/-- `disconnect` (lines 29-61): close the session, disconnect and null every
audio ref, stop the stream tracks, close both contexts, and clear the
observable flags and the audio level. The cursor and the error field are not
touched. -/
def disconnect (s : HookState) : HookState :=
  { s with
    session := false, processor := false, source := false, stream := false,
    inputCtx := false, audioCtx := false,
    connected := false, isTalking := false, isUserTalking := false, userAudioLevel := 0 }

/-- The `onclose` callback (lines 246-249): it only clears `isConnected`. -/
def onclose (s : HookState) : HookState :=
  { s with connected := false }

/-- `connect` (lines 63-266), up to installing the callbacks: a missing (or
empty) API key records the error "API Key missing" and returns before any
network or device work; otherwise contexts are created, the cursor is set to
the fresh output-context clock, and the live connection is attempted. The
boolean result records whether a network attempt was made. -/
def connect (apiKey : Option String) (ctxTime : ℚ) (s : HookState) : HookState × Bool :=
  if apiKey.getD "" = "" then
    ({ s with error := some "API Key missing" }, false)
  else
    ({ s with audioCtx := true, inputCtx := true, nextStart := ctxTime, session := true }, true)

/-- The `onopen` callback (lines 137-182): mark connected and clear the
error, then try to acquire the microphone; on success install the stream,
source and processor, on denial record "Microphone access denied." and keep
the session as it is. -/
def onopen (micGranted : Bool) (s : HookState) : HookState :=
  let s1 := { s with connected := true, error := none }
  if micGranted then
    { s1 with stream := true, source := true, processor := true }
  else
    { s1 with error := some "Microphone access denied." }

/-- A concrete reachable hook state: connected, assistant audio scheduled up
to cursor 5, user currently talking. -/
def busyState : HookState :=
  { session := true, processor := true, source := true, stream := true,
    inputCtx := true, audioCtx := true, nextStart := 5, connected := true,
    isTalking := true, isUserTalking := true, userAudioLevel := 1 / 2, error := none }

/-- The all-clear initial state of the hook. -/
def initialState : HookState :=
  { session := false, processor := false, source := false, stream := false,
    inputCtx := false, audioCtx := false, nextStart := 0, connected := false,
    isTalking := false, isUserTalking := false, userAudioLevel := 0, error := none }

/-- C6 counterexample: at a state with cursor 5 and the user talking,
`disconnect` leaves the cursor at 5 instead of resetting it to zero, and a
remote close notification leaves `isUserTalking` true instead of clearing
it. -/
theorem disconnect_close_counterexample :
    ¬ ((disconnect busyState).nextStart = 0) ∧
    ¬ ((onclose busyState).isUserTalking = false) := by
  constructor
  · intro h
    simp only [disconnect, busyState] at h
    norm_num at h
  · intro h
    simp [onclose, busyState] at h

/-- C6 amended: `disconnect` is idempotent, total (so a second call or a
call with no session open produces no error and leaves the error field
untouched), stops the capture pipeline, releases every device and context
handle, and clears connected, both talking flags and the audio level — but
it does not reset the playback cursor (that happens only on the next
connect); a remote close notification only sets connected=false and leaves
everything else, the talking flags included, unchanged. -/
theorem disconnect_idempotent_spec (s : HookState) :
    disconnect (disconnect s) = disconnect s ∧
    (disconnect s).connected = false ∧
    (disconnect s).isTalking = false ∧
    (disconnect s).isUserTalking = false ∧
    (disconnect s).userAudioLevel = 0 ∧
    (disconnect s).session = false ∧
    (disconnect s).processor = false ∧
    (disconnect s).source = false ∧
    (disconnect s).stream = false ∧
    (disconnect s).inputCtx = false ∧
    (disconnect s).audioCtx = false ∧
    (disconnect s).error = s.error ∧
    (disconnect s).nextStart = s.nextStart ∧
    onclose s = { s with connected := false } := by
  exact ⟨rfl, rfl, rfl, rfl, rfl, rfl, rfl, rfl, rfl, rfl, rfl, rfl, rfl, rfl⟩

/-- C7 counterexample: connecting with no key configured records the error
"API Key missing", not "credential missing". -/
theorem connect_missing_key_counterexample :
    ¬ ((connect none 0 initialState).1.error = some "credential missing" ∧
       (connect none 0 initialState).2 = false) := by
  intro h
  have h1 := h.1
  simp only [connect, Option.getD_none, if_pos rfl] at h1
  exact absurd h1 (by decide)

/-- C7 amended: `connect` with a missing or empty API key fails fast — it
records the error "API Key missing" in the observable error state, changes
nothing else, makes no network attempt, and returns normally rather than
raising. -/
theorem connect_missing_key_spec (k : Option String) (ctxTime : ℚ) (s : HookState)
    (hk : k.getD "" = "") :
    connect k ctxTime s = ({ s with error := some "API Key missing" }, false) := by
  simp [connect, hk]

/-- Witness for C7 amended at the unconfigured initial state. -/
theorem connect_missing_key_spec_witness :
    (none : Option String).getD "" = "" ∧
    connect none 0 initialState = ({ initialState with error := some "API Key missing" }, false) :=
  ⟨rfl, connect_missing_key_spec none 0 initialState rfl⟩

/-- C8 counterexample: when the microphone is denied after the session
opens, the recorded error is "Microphone access denied.", not
"microphone access denied". -/
theorem mic_denied_counterexample :
    ¬ ((onopen false initialState).error = some "microphone access denied" ∧
       (onopen false initialState).connected = true) := by
  intro h
  have h1 := h.1
  simp only [onopen, if_neg (by decide : ¬ (false = true))] at h1
  exact absurd h1 (by decide)

/-- C8 amended: microphone denial after the session opens records the error
"Microphone access denied." but does not tear the session down — connected
stays true and the session handle is untouched, so playback and tool use
continue. -/
theorem mic_denied_spec (s : HookState) :
    (onopen false s).error = some "Microphone access denied." ∧
    (onopen false s).connected = true ∧
    (onopen false s).session = s.session ∧
    (onopen false s).audioCtx = s.audioCtx ∧
    (onopen false s).nextStart = s.nextStart := by
  exact ⟨rfl, rfl, rfl, rfl, rfl⟩

/-! ## Capture loudness (src/services/liveSessionHook.ts, onaudioprocess 156-173) -/

/-- The audio level computed per captured frame: RMS of the samples,
amplified by 10 and clamped to 1, exactly as in `onaudioprocess`. -/
noncomputable def audioLevel (frame : List ℝ) : ℝ :=
  min 1 (Real.sqrt ((frame.map fun x => x * x).sum / frame.length) * 10)

/-- The user-talking predicate: audio level strictly above the fixed 0.05
threshold. -/
def userTalking (frame : List ℝ) : Prop :=
  audioLevel frame > 0.05

/-- C9: the audio level of a frame is min(1, RMS × 10) with
RMS = sqrt(mean(sample²)), and the user-talking flag holds exactly when the
level exceeds 0.05; an all-zero frame gives level 0 and no talking, a
full-scale (all-ones) frame gives level 1 (clamped from 10) and talking. -/
theorem audio_level_spec (frame : List ℝ) (n : ℕ) (hn : 0 < n) :
    audioLevel frame =
      min 1 (Real.sqrt ((frame.map fun x => x * x).sum / frame.length) * 10) ∧
    (userTalking frame ↔ audioLevel frame > 0.05) ∧
    (audioLevel (List.replicate n (0 : ℝ)) = 0 ∧ ¬ userTalking (List.replicate n (0 : ℝ))) ∧
    (audioLevel (List.replicate n (1 : ℝ)) = 1 ∧ userTalking (List.replicate n (1 : ℝ))) := by
  have hzero : audioLevel (List.replicate n (0 : ℝ)) = 0 := by
    simp [audioLevel]
  have hne : (n : ℝ) ≠ 0 := Nat.cast_ne_zero.mpr hn.ne'
  have hone : audioLevel (List.replicate n (1 : ℝ)) = 1 := by
    simp only [audioLevel, List.map_replicate, mul_one, List.sum_replicate, nsmul_eq_mul,
      List.length_replicate]
    rw [div_self hne, Real.sqrt_one]
    norm_num
  refine ⟨rfl, Iff.rfl, ⟨hzero, ?_⟩, ⟨hone, ?_⟩⟩
  · intro h
    rw [userTalking, hzero] at h
    norm_num at h
  · rw [userTalking, hone]
    norm_num

/-- Witness for C9 on frames of length three. -/
theorem audio_level_spec_witness :
    0 < 3 ∧
    audioLevel (List.replicate 3 (0 : ℝ)) = 0 ∧
    audioLevel (List.replicate 3 (1 : ℝ)) = 1 := by
  have h := audio_level_spec [] 3 (by norm_num)
  exact ⟨by norm_num, h.2.2.1.1, h.2.2.2.1⟩

end OneApp
